import Mathlib

/-!
Shallow embedding of the `cloud-blocks` naming and environment utilities
(`generateResourceName`, `generateS3BucketName`, `getStage`,
`getRemovalPolicyFromStage`) and of the `RequiredTagsChecker` CDK aspect,
together with theorems settling the specification claims about them.

Strings are modelled over their character lists; JavaScript's
`toLowerCase`, `trim`, `Array.prototype.filter(Boolean)` and
`Array.prototype.join('-')` are embedded character-wise, faithful to
their behaviour on the ASCII inputs these utilities handle.
-/

namespace CloudBlocks

/-- JavaScript `String.prototype.toLowerCase`, character-wise. -/
def toLowerStr (s : String) : String :=
  ⟨s.data.map Char.toLower⟩

/-- JavaScript `String.prototype.trim`: strip leading and trailing whitespace. -/
def trimStr (s : String) : String :=
  ⟨((s.data.dropWhile Char.isWhitespace).reverse.dropWhile Char.isWhitespace).reverse⟩

/-- JavaScript `Array.prototype.join('-')` on a list of strings. -/
def joinDash : List String → String
  | [] => ""
  | [s] => s
  | s :: t :: rest => s ++ "-" ++ joinDash (t :: rest)

/-- JavaScript `Array.prototype.filter(Boolean)` on an array whose entries are
strings or `undefined` (`none`): drops `undefined` and the empty string. -/
def filterTruthy (l : List (Option String)) : List String :=
  l.filterMap fun o =>
    match o with
    | none => none
    | some s => if s = "" then none else some s

/-- `RemovalPolicy` from `aws-cdk-lib` (the two values these utilities use). -/
inductive RemovalPolicy where
  | retain
  | destroy
deriving DecidableEq, Repr

/-- The typed errors thrown by the naming utilities, carrying the thrown
`Error`'s message string. -/
inductive NameError where
  | nameTooShort (message : String)
  | nameTooLong (message : String)
  | invalidNameCharacters (message : String)
deriving DecidableEq, Repr

/-- `ResourceNameParts`: components of a standardised resource name.
`suffix` and `region` are optional (`undefined` when absent). -/
structure ResourceNameParts where
  stage : String
  service : String
  resource : String
  suffix : Option String := none
  region : Option String := none

/-- The array literal `[stage, service, resource, suffix, region]` built by
`generateResourceName` before filtering. -/
def resourceNameSource (p : ResourceNameParts) : List (Option String) :=
  [some p.stage, some p.service, some p.resource, p.suffix, p.region]

/-- The composed resource name:
`[stage, service, resource, suffix, region].filter(Boolean).join('-').toLowerCase()`. -/
def composedResourceName (p : ResourceNameParts) : String :=
  toLowerStr (joinDash (filterTruthy (resourceNameSource p)))

/-- The message of the error thrown when a resource name is too long. -/
def resourceNameTooLongMsg (name : String) : String :=
  "Generated resource name \"" ++ name ++
    "\" exceeds the maximum allowed length of 64 characters."

/-- `generateResourceName` from
`src/utils/generate-resource-name/generate-resource-name.ts`: compose the
name and throw if it exceeds `MAX_LENGTH = 64` characters. -/
def generateResourceName (p : ResourceNameParts) : Except NameError String :=
  let name := composedResourceName p
  if name.length > 64 then
    .error (.nameTooLong (resourceNameTooLongMsg name))
  else
    .ok name

/-- `Omit<ResourceNameParts, 'resource'>`: the input of `generateS3BucketName`. -/
structure BucketNameParts where
  stage : String
  service : String
  suffix : Option String := none
  region : Option String := none

/-- The array literal `[stage, service, RESOURCE_TYPE, suffix, region]` built
by `generateS3BucketName` (with `RESOURCE_TYPE = 'bucket'`) before filtering. -/
def bucketNameSource (p : BucketNameParts) : List (Option String) :=
  [some p.stage, some p.service, some "bucket", p.suffix, p.region]

/-- The composed S3 bucket name:
`[stage, service, 'bucket', suffix, region].filter(Boolean).join('-').toLowerCase()`. -/
def composedBucketName (p : BucketNameParts) : String :=
  toLowerStr (joinDash (filterTruthy (bucketNameSource p)))

/-- `[a-z0-9]`: lowercase ASCII letter or digit. -/
def isLowerAlnum (c : Char) : Bool :=
  (('a' ≤ c) && (c ≤ 'z')) || (('0' ≤ c) && (c ≤ '9'))

/-- `[a-z0-9.-]`: a character allowed in the interior of an S3 bucket name. -/
def isBucketChar (c : Char) : Bool :=
  isLowerAlnum c || (c == '.') || (c == '-')

/-- Matcher for `[a-z0-9.-]*[a-z0-9]$` over the remaining characters. -/
def bucketTailMatch : List Char → Bool
  | [] => false
  | [c] => isLowerAlnum c
  | c :: rest => isBucketChar c && bucketTailMatch rest

/-- The regex test `/^[a-z0-9][a-z0-9.-]*[a-z0-9]$/.test(name)`. -/
def bucketNameRegexTest (s : String) : Bool :=
  match s.data with
  | [] => false
  | c :: rest => isLowerAlnum c && bucketTailMatch rest

/-- The message of the error thrown when an S3 bucket name is too short. -/
def bucketNameTooShortMsg (name : String) : String :=
  "Generated S3 bucket name \"" ++ name ++
    "\" is too short. Must be at least 3 characters."

/-- The message of the error thrown when an S3 bucket name is too long. -/
def bucketNameTooLongMsg (name : String) : String :=
  "Generated S3 bucket name \"" ++ name ++
    "\" exceeds the maximum allowed length of 63 characters."

/-- The message of the error thrown when an S3 bucket name has invalid
characters. -/
def bucketNameInvalidCharsMsg (name : String) : String :=
  "Generated S3 bucket name \"" ++ name ++
    "\" contains invalid characters. Must contain only lowercase letters, numbers, dots, and hyphens, and start/end with alphanumeric characters."

/-- `generateS3BucketName` from
`src/utils/generate-s3-bucket-name/generate-s3-bucket-name.ts`: compose the
name with the hardcoded `'bucket'` resource slot, then check, in order,
`MIN_LENGTH = 3`, `MAX_LENGTH = 63`, and the character-class regex. -/
def generateS3BucketName (p : BucketNameParts) : Except NameError String :=
  let name := composedBucketName p
  if name.length < 3 then
    .error (.nameTooShort (bucketNameTooShortMsg name))
  else if name.length > 63 then
    .error (.nameTooLong (bucketNameTooLongMsg name))
  else if !(bucketNameRegexTest name) then
    .error (.invalidNameCharacters (bucketNameInvalidCharsMsg name))
  else
    .ok name

/-- `getStage` (switch-based variant from
`src/utils/get-stage/get-stage.ts`): match the raw input against the known
`Stage` enum literals (`'prod'`, `'staging'`, `'test'`); on no match, return
`stage.toLowerCase()` — the ephemeral-environment fallback. -/
def getStage (stage : String) : String :=
  if stage = "prod" then "prod"
  else if stage = "staging" then "staging"
  else if stage = "test" then "test"
  else toLowerStr stage

/-- `getStage` (normalising one-line variant appearing alongside the
switch-based one): `stage.toLowerCase().trim()`. -/
def getStage' (stage : String) : String :=
  trimStr (toLowerStr stage)

/-- `getRemovalPolicyFromStage` (first variant, `src/unnamed/part_010`):
`[Stage.Prod, Stage.Staging].includes(stage.toLowerCase().trim())
? RETAIN : DESTROY`. -/
def getRemovalPolicyFromStage (stage : String) : RemovalPolicy :=
  if trimStr (toLowerStr stage) ∈ (["prod", "staging"] : List String) then
    .retain
  else
    .destroy

/-- `getRemovalPolicyFromStage` (second variant, `src/unnamed/part_011`):
return `DESTROY` when the normalised stage differs from both `Stage.prod`
and `Stage.staging`, else `RETAIN`. -/
def getRemovalPolicyFromStage' (stage : String) : RemovalPolicy :=
  if trimStr (toLowerStr stage) ≠ "prod" ∧ trimStr (toLowerStr stage) ≠ "staging" then
    .destroy
  else
    .retain

/-- A diagnostic added through `Annotations.of(node).addError(...)` by the
`RequiredTagsChecker` aspect, by kind: either "no tags present on the
stack" or "a specific required tag key is missing". -/
inductive Diagnostic where
  | noTagsPresent (stackName : String)
  | missingRequiredTag (tag : String) (stackName : String)
deriving DecidableEq, Repr

/-- The error message string each diagnostic carries, as built by `visit`. -/
def Diagnostic.message : Diagnostic → String
  | .noTagsPresent n => "There are no tags on \"" ++ n ++ "\""
  | .missingRequiredTag t n =>
      "\"" ++ t ++ "\" is missing from stack with id \"" ++ n ++ "\""

/-- A `Stack` node: its `stackName` and its tag map (`node.tags`), modelled
as an association list of key/value pairs. -/
structure StackNode where
  stackName : String
  tags : List (String × String)

/-- A construct-tree node as seen by the aspect: either a `Stack` (a
deployable unit) or any other construct, which may itself carry tags. -/
inductive ConstructNode where
  | stack (s : StackNode)
  | other (tags : List (String × String))

/-- `TagManager.hasTags()`: the stack has at least one tag. -/
def hasTags (tags : List (String × String)) : Bool :=
  !tags.isEmpty

/-- `Object.keys(node.tags.tagValues())`: the keys of the tag map. -/
def tagKeys (tags : List (String × String)) : List String :=
  tags.map Prod.fst

/-- The `for (const tag of this.requiredTags)` loop of
`RequiredTagsChecker.visit`: for each required tag, in declared order, emit
a `missingRequiredTag` diagnostic when the key is absent from the tag map. -/
def checkRequiredTags (stackName : String) (keys : List String) :
    List String → List Diagnostic
  | [] => []
  | t :: rest =>
      (if keys.contains t then [] else [.missingRequiredTag t stackName])
        ++ checkRequiredTags stackName keys rest

/-- `RequiredTagsChecker.visit` from
`src/aspects/required-tags-checker/required-tags-checker.ts`, returning the
list of diagnostics added to the node's annotations, in emission order:
return immediately on a non-`Stack` node; otherwise emit `noTagsPresent`
when `hasTags()` is false, then run the required-tags loop. -/
def visit (requiredTags : List String) (node : ConstructNode) : List Diagnostic :=
  match node with
  | .other _ => []
  | .stack s =>
      (if !hasTags s.tags then [.noTagsPresent s.stackName] else [])
        ++ checkRequiredTags s.stackName (tagKeys s.tags) requiredTags

end CloudBlocks

namespace CloudBlocks

/-- C1: `getRemovalPolicyFromStage` returns `RETAIN` exactly when the
lowercased, trimmed input is `"prod"` or `"staging"`, and `DESTROY` for
every other string; in particular `"STAGING"` and `" prod "` retain while
`"develop"`, `"test"` and the ephemeral label `"pr-456"` destroy. -/
theorem getRemovalPolicyFromStage_retain_iff :
    (∀ s : String,
      (getRemovalPolicyFromStage s = .retain ↔
        trimStr (toLowerStr s) = "prod" ∨ trimStr (toLowerStr s) = "staging") ∧
      (getRemovalPolicyFromStage s = .retain ∨ getRemovalPolicyFromStage s = .destroy)) ∧
    getRemovalPolicyFromStage "STAGING" = .retain ∧
    getRemovalPolicyFromStage " prod " = .retain ∧
    getRemovalPolicyFromStage "develop" = .destroy ∧
    getRemovalPolicyFromStage "test" = .destroy ∧
    getRemovalPolicyFromStage "pr-456" = .destroy := by
  refine ⟨fun s => ?_, by decide, by decide, by decide, by decide, by decide⟩
  by_cases h : trimStr (toLowerStr s) = "prod" ∨ trimStr (toLowerStr s) = "staging"
  · simp [getRemovalPolicyFromStage, h]
  · simp [getRemovalPolicyFromStage, h]

/-- C10: the two source variants of `getRemovalPolicyFromStage` — the
list-membership one and the double-inequality one — agree on every input
string. -/
theorem getRemovalPolicyFromStage_variants_agree :
    ∀ s : String, getRemovalPolicyFromStage s = getRemovalPolicyFromStage' s := by
  intro s
  by_cases h : trimStr (toLowerStr s) = "prod" ∨ trimStr (toLowerStr s) = "staging"
  · simp [getRemovalPolicyFromStage, getRemovalPolicyFromStage', h]
    rcases h with h | h <;> simp [h]
  · push_neg at h
    simp [getRemovalPolicyFromStage, getRemovalPolicyFromStage', h.1, h.2]

/-- C4 counterexample: the switch-based `getStage` does not trim in its
ephemeral fallback — on `" PR-123 "` it returns `" pr-123 "`, which differs
from the trimmed, lowercased input `"pr-123"`. -/
theorem getStage_fallback_no_trim_counterexample :
    getStage " PR-123 " = " pr-123 " ∧
    (getStage " PR-123 " == trimStr (toLowerStr " PR-123 ")) = false := by
  decide

/-- C4 (amended): for every input not matching a known stage literal, the
switch-based `getStage` returns the lowercased input without trimming
(e.g. `"PR-123"` → `"pr-123"`); the normalising one-line variant, by
contrast, returns the trimmed, lowercased input. -/
theorem getStage_fallback_lowercases :
    (∀ s : String, s ≠ "prod" → s ≠ "staging" → s ≠ "test" →
      getStage s = toLowerStr s) ∧
    (∀ s : String, getStage' s = trimStr (toLowerStr s)) := by
  refine ⟨fun s h1 h2 h3 => ?_, fun s => rfl⟩
  simp [getStage, h1, h2, h3]

/-- C4 witness: the amended theorem applied at the concrete ephemeral label
`"PR-123"`. -/
theorem getStage_fallback_lowercases_witness :
    getStage "PR-123" = toLowerStr "PR-123" :=
  getStage_fallback_lowercases.1 "PR-123" (by decide) (by decide) (by decide)

/-- Lowercasing a string character-wise preserves its length. -/
lemma toLowerStr_length (s : String) : (toLowerStr s).length = s.length := by
  show (s.data.map Char.toLower).length = s.data.length
  exact List.length_map _ _

/-- Appending strings adds their lengths. -/
lemma strLength_append (a b : String) : (a ++ b).length = a.length + b.length := by
  cases a with
  | mk da =>
    cases b with
    | mk db =>
      show (da ++ db).length = da.length + db.length
      exact List.length_append da db

/-- Every member of a list is no longer than the `'-'`-join of the list. -/
lemma length_le_joinDash {a : String} : ∀ {l : List String}, a ∈ l →
    a.length ≤ (joinDash l).length := by
  intro l
  induction l with
  | nil => intro h; cases h
  | cons x xs ih =>
    intro h
    cases xs with
    | nil =>
      cases h with
      | head => exact Nat.le_refl _
      | tail _ h => cases h
    | cons y ys =>
      cases h with
      | head =>
        show a.length ≤ (a ++ "-" ++ joinDash (y :: ys)).length
        rw [strLength_append, strLength_append]
        omega
      | tail _ h =>
        show a.length ≤ (x ++ "-" ++ joinDash (y :: ys)).length
        rw [strLength_append, strLength_append]
        have := ih h
        omega

/-- The hardcoded `"bucket"` token survives the truthiness filter in every
bucket-name composition. -/
lemma bucket_mem_filterTruthy (p : BucketNameParts) :
    "bucket" ∈ filterTruthy (bucketNameSource p) := by
  rw [filterTruthy, List.mem_filterMap]
  exact ⟨some "bucket", by simp [bucketNameSource], by decide⟩

/-- The composed bucket name is always at least 6 characters long. -/
lemma composedBucketName_length (p : BucketNameParts) :
    6 ≤ (composedBucketName p).length := by
  rw [composedBucketName, toLowerStr_length]
  have h := length_le_joinDash (bucket_mem_filterTruthy p)
  simpa using h

/-- Recogniser for the `NameTooShort` error outcome of a naming utility. -/
def isNameTooShortError (r : Except NameError String) : Bool :=
  match r with
  | .error (.nameTooShort _) => true
  | _ => false

end CloudBlocks

namespace CloudBlocks

/-- C9: the minimum-length branch of `generateS3BucketName` is unreachable —
the composed name always contains the hardcoded `"bucket"` token, so it has
length at least 6 and no input can produce the too-short error. -/
theorem generateS3BucketName_tooShort_unreachable :
    ∀ p : BucketNameParts,
      6 ≤ (composedBucketName p).length ∧
      isNameTooShortError (generateS3BucketName p) = false := by
  intro p
  refine ⟨composedBucketName_length p, ?_⟩
  have h6 := composedBucketName_length p
  rw [generateS3BucketName]
  rw [if_neg (by omega)]
  split
  · rfl
  · split <;> rfl

/-- C3 counterexample: `generateS3BucketName` on `stage = "a"`,
`service = ""` does not fail at all — the empty service is filtered before
joining, and the call succeeds with `"a-bucket"`. -/
theorem generateS3BucketName_floor_counterexample :
    generateS3BucketName ⟨"a", "", none, none⟩ = Except.ok "a-bucket" := by
  rfl

/-- C3 (amended): `composeBucketName({stage:"a", service:""})` succeeds —
once the empty service is filtered, the assembled name is `"a-bucket"`,
whose length 8 clears the 3-character floor, so neither the length-floor
nor the character-class error arises. -/
theorem generateS3BucketName_floor_amended :
    composedBucketName ⟨"a", "", none, none⟩ = "a-bucket" ∧
    ("a-bucket" : String).length = 8 ∧
    generateS3BucketName ⟨"a", "", none, none⟩ = Except.ok "a-bucket" := by
  refine ⟨by rfl, by decide, by rfl⟩

/-- A parts record whose composed resource name is exactly 64 characters. -/
def parts64 : ResourceNameParts :=
  ⟨⟨List.replicate 64 'a'⟩, "", "", none, none⟩

/-- A parts record whose composed resource name is exactly 65 characters. -/
def parts65 : ResourceNameParts :=
  ⟨⟨List.replicate 65 'a'⟩, "", "", none, none⟩

/-- C5: `generateResourceName`'s maximum-length check is a strict
greater-than against 64 — a composed name of length at most 64 succeeds,
and one of length 65 or more raises the too-long error whose message
embeds the computed name and the 64-character limit. -/
theorem generateResourceName_length_boundary (p : ResourceNameParts) :
    ((composedResourceName p).length ≤ 64 →
      generateResourceName p = Except.ok (composedResourceName p)) ∧
    (65 ≤ (composedResourceName p).length →
      generateResourceName p =
        Except.error (NameError.nameTooLong
          ("Generated resource name \"" ++ composedResourceName p ++
            "\" exceeds the maximum allowed length of 64 characters."))) := by
  constructor
  · intro h
    have hn : ¬ (composedResourceName p).length > 64 := by omega
    simp [generateResourceName, hn]
  · intro h
    have hn : (composedResourceName p).length > 64 := by omega
    simp [generateResourceName, resourceNameTooLongMsg, hn]

/-- C5 witness: the boundary theorem applied at a concrete 64-character
name (succeeds) and a concrete 65-character name (too-long error). -/
theorem generateResourceName_length_boundary_witness :
    generateResourceName parts64 = Except.ok (composedResourceName parts64) ∧
    generateResourceName parts65 =
      Except.error (NameError.nameTooLong
        ("Generated resource name \"" ++ composedResourceName parts65 ++
          "\" exceeds the maximum allowed length of 64 characters.")) :=
  ⟨(generateResourceName_length_boundary parts64).1 (by decide),
   (generateResourceName_length_boundary parts65).2 (by decide)⟩

/-- C6: on success, `generateResourceName` returns exactly the lowercase of
the `'-'`-join of the truthy entries of `[stage, service, resource, suffix,
region]`; with all three mandatory parts non-empty and no suffix/region the
name is the plain three-part join with single separators, and
`generateResourceName` on `prod`/`orders`/`table` is exactly
`"prod-orders-table"`. -/
theorem generateResourceName_join_lowercase :
    (∀ (p : ResourceNameParts) (n : String),
      generateResourceName p = Except.ok n → n = composedResourceName p) ∧
    (∀ stage service resource : String,
      stage ≠ "" → service ≠ "" → resource ≠ "" →
      composedResourceName ⟨stage, service, resource, none, none⟩ =
        toLowerStr (stage ++ "-" ++ (service ++ "-" ++ resource))) ∧
    generateResourceName ⟨"prod", "orders", "table", none, none⟩ =
      Except.ok "prod-orders-table" := by
  refine ⟨fun p n h => ?_, fun stage service resource h1 h2 h3 => ?_, by rfl⟩
  · by_cases hl : (composedResourceName p).length > 64
    · simp [generateResourceName, hl] at h
    · simp [generateResourceName, hl] at h
      exact h.symm
  · have e : filterTruthy (resourceNameSource ⟨stage, service, resource, none, none⟩) =
        [stage, service, resource] := by
      simp [filterTruthy, resourceNameSource, List.filterMap, h1, h2, h3]
    rw [composedResourceName, e]
    rfl

/-- C6 witness: the join-shape theorem applied at the concrete parts
`prod`/`orders`/`table`. -/
theorem generateResourceName_join_lowercase_witness :
    "prod-orders-table" =
      composedResourceName ⟨"prod", "orders", "table", none, none⟩ ∧
    composedResourceName ⟨"prod", "orders", "table", none, none⟩ =
      toLowerStr ("prod" ++ "-" ++ ("orders" ++ "-" ++ "table")) :=
  ⟨generateResourceName_join_lowercase.1 ⟨"prod", "orders", "table", none, none⟩
      "prod-orders-table" (by rfl),
   generateResourceName_join_lowercase.2.1 "prod" "orders" "table"
      (by decide) (by decide) (by decide)⟩

/-- C7: `generateS3BucketName` always places the literal `"bucket"` token
third in the source array, the token always survives the truthiness
filter, and `stage = "prod"`, `service = "assets"` with no resource field
yields exactly `"prod-assets-bucket"`. -/
theorem generateS3BucketName_hardcoded_bucket :
    (∀ p : BucketNameParts,
      bucketNameSource p =
        [some p.stage, some p.service, some "bucket", p.suffix, p.region] ∧
      "bucket" ∈ filterTruthy (bucketNameSource p)) ∧
    generateS3BucketName ⟨"prod", "assets", none, none⟩ =
      Except.ok "prod-assets-bucket" := by
  refine ⟨fun p => ⟨rfl, bucket_mem_filterTruthy p⟩, by rfl⟩

/-- The required-tags loop emits exactly one `missingRequiredTag` per
absent key, in declared order. -/
lemma checkRequiredTags_eq (n : String) (keys req : List String) :
    checkRequiredTags n keys req =
      (req.filter fun t => !(keys.contains t)).map
        fun t => Diagnostic.missingRequiredTag t n := by
  induction req with
  | nil => rfl
  | cons t rest ih =>
    by_cases hm : t ∈ keys <;>
      simp [checkRequiredTags, hm, ih, List.filter_cons]

/-- C2: on a `Stack` node, `visit` emits the single `noTagsPresent`
diagnostic exactly when the tag map is empty, followed by one
`missingRequiredTag` diagnostic per required key absent from the tag map,
in declared order; an empty-tagged stack with required keys
`["Environment"]` yields exactly those two diagnostics in that order. -/
theorem requiredTagsChecker_visit_stack :
    (∀ (name : String) (tags : List (String × String)) (req : List String),
      visit req (.stack ⟨name, tags⟩) =
        (if tags = [] then [Diagnostic.noTagsPresent name] else [])
          ++ (req.filter fun t => !((tagKeys tags).contains t)).map
              (fun t => Diagnostic.missingRequiredTag t name)) ∧
    visit ["Environment"] (.stack ⟨"Stack1", []⟩) =
      [Diagnostic.noTagsPresent "Stack1",
       Diagnostic.missingRequiredTag "Environment" "Stack1"] := by
  refine ⟨fun name tags req => ?_, by decide⟩
  cases tags with
  | nil => simp [visit, hasTags, checkRequiredTags_eq]
  | cons q qs => simp [visit, hasTags, checkRequiredTags_eq]

/-- C8: `visit` is a no-op on every node that is not a `Stack`, whatever
tags the node itself carries. -/
theorem requiredTagsChecker_visit_nonUnit :
    ∀ (tags : List (String × String)) (req : List String),
      visit req (.other tags) = [] :=
  fun _ _ => rfl

end CloudBlocks
